import Mathlib

/-!
Shallow embedding of the core of the memory-visualizer
(`src/components/KnowledgeGraphVisualization.tsx`): the data model
(entities, relations, derived nodes and links), the filter pipeline
`getFilteredData`, the per-node degree computation (`getRelationCounts`
plus the degree assignment loop of the render effect), and the selection
history state machine `historyReducer`.

JavaScript strings are modelled as Lean `String`; `toLowerCase().includes`
is modelled on the underlying character lists (`jsToLower`,
`charsContains`), JavaScript `Array.slice(0, e)` (with its negative-index
clamping) as `jsSliceToEnd`, and JavaScript array indexing (which yields
`undefined` out of range) as `jsGet` into `Option`.  JavaScript `Set.has`
and `Map.get` (last insertion wins) are modelled by `List.contains` and
`nodeMapGet`.  The mutable simulation fields of a node (`x`, `y`, `vx`,
`vy`, `fx`, `fy`, `index`), all set to `undefined` at node creation, are
modelled as `Option` fields that are `none` at creation.
-/

/-- Prefix test on character lists; building block for `charsContains`. -/
def charsStartsWith : List Char → List Char → Bool
  | [], _ => true
  | _ :: _, [] => false
  | a :: as, b :: bs => a == b && charsStartsWith as bs

/-- JavaScript `haystack.includes(needle)` on character lists:
`needle` occurs contiguously somewhere in `hay`. -/
def charsContains (hay needle : List Char) : Bool :=
  charsStartsWith needle hay ||
    match hay with
    | [] => false
    | _ :: t => charsContains t needle

/-- JavaScript `s.toLowerCase()`, as a character list. -/
def jsToLower (s : String) : List Char := s.data.map Char.toLower

/-- Entity record of the source (`interface Entity`): `name`, `entityType`,
`observations`, and the line-tag `type` (`"entity"`). -/
structure Entity where
  name : String
  entityType : String
  observations : List String
  type : String
deriving DecidableEq

/-- Relation record of the source (`interface Relation`): `from`, `to`,
`relationType`, and the line-tag `type` (`"relation"`). -/
structure Relation where
  «from» : String
  «to» : String
  relationType : String
  type : String
deriving DecidableEq

/-- The ingested dataset (`interface GraphData`). -/
structure GraphData where
  entities : List Entity
  relations : List Relation
deriving DecidableEq

/-- Simulation node derived from an entity (`interface Node`), including the
mutable d3 simulation fields, which are `undefined` (`none`) at creation. -/
structure Node where
  id : String
  name : String
  entityType : String
  observations : List String
  index : Option Nat
  x : Option Float
  y : Option Float
  vx : Option Float
  vy : Option Float
  fx : Option Float
  fy : Option Float
  degree : Option Nat

/-- Link derived from a relation (`interface Link`): resolved source and
target nodes plus the relation type as label. -/
structure Link where
  source : Node
  target : Node
  type : String

/-- The search predicate of `getFilteredData`: the entity's name, type, or
one of its observations contains the (already lowercased) term as a
substring, case-insensitively. -/
def entityMatchesSearch (term : List Char) (entity : Entity) : Bool :=
  charsContains (jsToLower entity.name) term ||
  charsContains (jsToLower entity.entityType) term ||
  entity.observations.any (fun obs => charsContains (jsToLower obs) term)

/-- Step 1 of `getFilteredData`: `if (searchTerm) { ... filter ... }`.
A non-empty search term keeps exactly the entities matching it. -/
def searchFilter (searchTerm : String) (entities : List Entity) : List Entity :=
  if searchTerm ≠ "" then
    entities.filter (entityMatchesSearch (jsToLower searchTerm))
  else entities

/-- Step 2 of `getFilteredData`: `if (filterEntityType !== "All") { ... }`. -/
def entityTypeFilter (filterEntityType : String) (entities : List Entity) : List Entity :=
  if filterEntityType ≠ "All" then
    entities.filter (fun entity => entity.entityType == filterEntityType)
  else entities

/-- The `filteredEntities` value of `getFilteredData`. -/
def filteredEntitiesOf (graphData : GraphData) (searchTerm filterEntityType : String) :
    List Entity :=
  entityTypeFilter filterEntityType (searchFilter searchTerm graphData.entities)

/-- The `entityNames` set of `getFilteredData` (a JS `Set`, queried only
through `has`, hence modelled as the name list). -/
def entityNamesOf (graphData : GraphData) (searchTerm filterEntityType : String) :
    List String :=
  (filteredEntitiesOf graphData searchTerm filterEntityType).map (·.name)

/-- Relation filter of `getFilteredData`: keep a relation iff both endpoints
are names of surviving entities. -/
def relationEndpointFilter (entityNames : List String) (relations : List Relation) :
    List Relation :=
  relations.filter (fun relation =>
    entityNames.contains relation.«from» && entityNames.contains relation.«to»)

/-- Relation-type filter of `getFilteredData`:
`if (filterRelationType !== "All") { ... }`. -/
def relationTypeFilter (filterRelationType : String) (relations : List Relation) :
    List Relation :=
  if filterRelationType ≠ "All" then
    relations.filter (fun relation => relation.relationType == filterRelationType)
  else relations

/-- The `filteredRelations` value of `getFilteredData`. -/
def filteredRelationsOf (graphData : GraphData)
    (searchTerm filterEntityType filterRelationType : String) : List Relation :=
  relationTypeFilter filterRelationType
    (relationEndpointFilter (entityNamesOf graphData searchTerm filterEntityType)
      graphData.relations)

/-- Node materialization of `getFilteredData`: one node per surviving entity,
with all simulation fields `undefined`. -/
def mkNode (entity : Entity) : Node :=
  { id := entity.name
    name := entity.name
    entityType := entity.entityType
    observations := entity.observations
    index := none
    x := none
    y := none
    vx := none
    vy := none
    fx := none
    fy := none
    degree := none }

/-- The `nodeMap` lookup of `getFilteredData`: a JS `Map` built by iterating
`nodeMap.set(node.id, node)` over the node list, so a later insertion with
the same id wins; `get` of an absent key is `undefined`. -/
def nodeMapGet (nodes : List Node) (key : String) : Option Node :=
  nodes.reverse.find? (fun node => node.id == key)

/-- Link materialization of `getFilteredData`: for each surviving relation,
resolve both endpoints through `nodeMap`; push a link only if both resolve. -/
def mkLinks (nodes : List Node) (relations : List Relation) : List Link :=
  relations.filterMap (fun relation =>
    match nodeMapGet nodes relation.«from», nodeMapGet nodes relation.«to» with
    | some source, some target =>
        some { source := source, target := target, type := relation.relationType }
    | _, _ => none)

/-- The filter pipeline `getFilteredData` of the source, as a function of the
dataset (`graphData` state, `null` ↦ `none`) and the three query states
(`searchTerm`, `filterEntityType`, `filterRelationType`). -/
def getFilteredData (graphData : Option GraphData)
    (searchTerm filterEntityType filterRelationType : String) :
    List Node × List Link :=
  match graphData with
  | none => ([], [])
  | some graphData =>
    let nodes := (filteredEntitiesOf graphData searchTerm filterEntityType).map mkNode
    let links := mkLinks nodes
      (filteredRelationsOf graphData searchTerm filterEntityType filterRelationType)
    (nodes, links)

/-- `getRelationCounts(nodeName)` of the source: `(inbound, outbound)` counts
scanned over the FULL dataset's relation list (`graphData.relations`),
`(0, 0)` when no dataset is loaded. -/
def getRelationCounts (graphData : Option GraphData) (nodeName : String) : Nat × Nat :=
  match graphData with
  | none => (0, 0)
  | some graphData =>
    ((graphData.relations.filter (fun r => r.«to» == nodeName)).length,
     (graphData.relations.filter (fun r => r.«from» == nodeName)).length)

/-- The degree-assignment loop of the render effect:
`node.degree = inbound + outbound` using `getRelationCounts(node.id)`. -/
def assignDegrees (graphData : Option GraphData) (nodes : List Node) : List Node :=
  nodes.map (fun node =>
    let counts := getRelationCounts graphData node.id
    { node with degree := some (counts.1 + counts.2) })

/-- Spec-side definition, following the claim's words (NOT taken from the
source, kept for comparison against `assignDegrees`): the number of links of
the currently filtered view in which the given node appears as an endpoint. -/
def specFilteredDegree (links : List Link) (nodeId : String) : Nat :=
  (links.filter (fun link => link.source.id == nodeId || link.target.id == nodeId)).length

/-- Selection-history state (`type HistoryState`): the stack of selected
nodes, the cursor (a JS number, possibly `-1`), and the current selection. -/
structure HistoryState where
  history : List Node
  index : Int
  selectedNode : Option Node

/-- The five history actions (`type HistoryAction`). -/
inductive HistoryAction where
  | select (node : Node)
  | back
  | forward
  | clear
  | reset

/-- JavaScript `l.slice(0, e)`: a negative end counts from the end of the
array (clamped at 0), an end beyond the length is clamped to the length. -/
def jsSliceToEnd (l : List α) (e : Int) : List α :=
  if e < 0 then l.take ((l.length + e).toNat) else l.take e.toNat

/-- JavaScript array indexing `l[i]`: `undefined` (`none`) out of range. -/
def jsGet (l : List α) (i : Int) : Option α :=
  if i < 0 then none else l[i.toNat]?

/-- The `historyReducer` of the source, case by case:
`select` truncates the stack to `slice(0, index + 1)`, appends the node and
selects it; `back`/`forward` move the cursor when strictly inside the
respective boundary and are the identity otherwise; `clear` nulls the
selection only; `reset` restores the initial state. -/
def historyReducer (state : HistoryState) (action : HistoryAction) : HistoryState :=
  match action with
  | .select node =>
    let newHistory := jsSliceToEnd state.history (state.index + 1) ++ [node]
    { history := newHistory
      index := (newHistory.length : Int) - 1
      selectedNode := some node }
  | .back =>
    if state.index > 0 then
      let newIndex := state.index - 1
      { state with index := newIndex, selectedNode := jsGet state.history newIndex }
    else state
  | .forward =>
    if state.index < (state.history.length : Int) - 1 then
      let newIndex := state.index + 1
      { state with index := newIndex, selectedNode := jsGet state.history newIndex }
    else state
  | .clear => { state with selectedNode := none }
  | .reset => { history := [], index := -1, selectedNode := none }

/-- The initial reducer state passed to `useReducer`:
`{ history: [], index: -1, selectedNode: null }`. -/
def initialHistoryState : HistoryState :=
  { history := [], index := -1, selectedNode := none }

/-- A history state is reachable when some sequence of dispatched actions
produces it from the initial state. -/
inductive Reachable : HistoryState → Prop where
  | init : Reachable initialHistoryState
  | step (s : HistoryState) (a : HistoryAction) (h : Reachable s) :
      Reachable (historyReducer s a)

/-- The reachable-state invariant of the history machine (see
`histInv_reachable`): the cursor lies in `[-1, length)`, is `-1` exactly on
the empty stack, and the selection is the stack entry at the cursor or
`none` (the latter arises from `clear` and from the initial state). -/
def histInv (s : HistoryState) : Prop :=
  -1 ≤ s.index ∧ s.index < (s.history.length : Int) ∧
  (s.index = -1 ↔ s.history = []) ∧
  (s.index = -1 → s.selectedNode = none) ∧
  (0 ≤ s.index → s.selectedNode = none ∨ s.selectedNode = jsGet s.history s.index)

/-- Structural shape of a node: the data fields, ignoring object identity
and mutable simulation state. -/
def nodeShape (node : Node) : String × String × String × List String :=
  (node.id, node.name, node.entityType, node.observations)

/-- Structural shape of a link: endpoint ids and label. -/
def linkShape (link : Link) : String × String × String :=
  (link.source.id, link.target.id, link.type)

/-- Structural equivalence of two filter outputs: equal node shapes and
equal link shapes, position by position. -/
def structEquiv (a b : List Node × List Link) : Prop :=
  a.1.map nodeShape = b.1.map nodeShape ∧ a.2.map linkShape = b.2.map linkShape

/-- Sample node used by concrete witness states. -/
def sampleNode (s : String) : Node :=
  mkNode { name := s, entityType := "T", observations := [], type := "entity" }

/-- Witness state: `select A` then `select B` from the initial state. -/
def historyAB : HistoryState :=
  historyReducer
    (historyReducer initialHistoryState (HistoryAction.select (sampleNode "A")))
    (HistoryAction.select (sampleNode "B"))

/-- Witness state: `historyAB` followed by `clear`. -/
def historyABclear : HistoryState := historyReducer historyAB HistoryAction.clear

/-- Witness state: `select A` then `clear` from the initial state. -/
def historyAclear : HistoryState :=
  historyReducer
    (historyReducer initialHistoryState (HistoryAction.select (sampleNode "A")))
    HistoryAction.clear

/-- Witness state: stack `[A, B, C]` with the cursor on `B`. -/
def historyABCatB : HistoryState :=
  { history := [sampleNode "A", sampleNode "B", sampleNode "C"]
    index := 1
    selectedNode := some (sampleNode "B") }

/-- Witness state: stack `[A]` with `A` selected. -/
def historyAatA : HistoryState :=
  { history := [sampleNode "A"], index := 0, selectedNode := some (sampleNode "A") }

/-- Witness entity for the degree scenario. -/
def entityA2 : Entity :=
  { name := "A", entityType := "T", observations := [], type := "entity" }

/-- Witness entity for the degree scenario. -/
def entityB2 : Entity :=
  { name := "B", entityType := "T", observations := [], type := "entity" }

/-- Witness dataset for the degree scenario: two parallel relations
`A → B` of types `r1` and `r2`. -/
def gdC2 : GraphData :=
  { entities := [entityA2, entityB2]
    relations :=
      [{ «from» := "A", «to» := "B", relationType := "r1", type := "relation" },
       { «from» := "A", «to» := "B", relationType := "r2", type := "relation" }] }

/-- The node for `A` as produced by the degree-assignment loop on `gdC2`. -/
def nodeA2deg : Node := { mkNode entityA2 with degree := some 2 }

/-- Witness entities and dataset for the containment scenario, including a
dangling relation `A → C` whose target entity does not exist. -/
def entityA3 : Entity :=
  { name := "A", entityType := "T", observations := [], type := "entity" }

/-- Witness entity for the containment scenario. -/
def entityB3 : Entity :=
  { name := "B", entityType := "T", observations := [], type := "entity" }

/-- Witness dataset for the containment scenario. -/
def gdC3 : GraphData :=
  { entities := [entityA3, entityB3]
    relations :=
      [{ «from» := "A", «to» := "B", relationType := "knows", type := "relation" },
       { «from» := "A", «to» := "C", relationType := "dangling", type := "relation" }] }

/-- The single link the pipeline produces from `gdC3` with an empty query. -/
def linkC3 : Link := { source := mkNode entityA3, target := mkNode entityB3, type := "knows" }

/-- The search-scenario entity of the spec. -/
def aliceEntity : Entity :=
  { name := "Alice", entityType := "Person", observations := ["likes cats"], type := "entity" }

/-- A second entity that matches the search term `dogs`. -/
def bobEntity : Entity :=
  { name := "Bob", entityType := "Person", observations := ["dogs barking"], type := "entity" }

/-- Witness dataset for the search scenario. -/
def gdC5 : GraphData :=
  { entities := [aliceEntity, bobEntity]
    relations :=
      [{ «from» := "Alice", «to» := "Bob", relationType := "knows", type := "relation" }] }

/-- A successful `nodeMap` lookup returns an element of the node list. -/
theorem nodeMapGet_mem (nodes : List Node) (key : String) (node : Node)
    (h : nodeMapGet nodes key = some node) : node ∈ nodes := by
  rw [nodeMapGet] at h
  exact List.mem_reverse.mp (List.mem_of_find?_eq_some h)

/-- A successful `nodeMap` lookup returns a node whose id is the key. -/
theorem nodeMapGet_id (nodes : List Node) (key : String) (node : Node)
    (h : nodeMapGet nodes key = some node) : node.id = key := by
  rw [nodeMapGet] at h
  have hb := List.find?_some h
  simp only [beq_iff_eq] at hb
  exact hb

/-- JavaScript indexing of an appended element at the old length. -/
theorem jsGet_concat_length (l : List α) (x : α) :
    jsGet (l ++ [x]) (l.length : Int) = some x := by
  rw [jsGet, if_neg (by omega)]
  simp [List.getElem?_concat_length]

/-- For a non-negative end, `jsSliceToEnd` is a plain `take`. -/
theorem jsSliceToEnd_nonneg (l : List α) (e : Int) (h : 0 ≤ e) :
    jsSliceToEnd l e = l.take e.toNat := by
  rw [jsSliceToEnd, if_neg (by omega)]

/-- Every history action preserves the reachable-state invariant. -/
theorem histInv_step (s : HistoryState) (a : HistoryAction) (h : histInv s) :
    histInv (historyReducer s a) := by
  obtain ⟨h1, h2, h3, h4, h5⟩ := h
  cases a with
  | select node =>
    rw [historyReducer]
    rw [jsSliceToEnd_nonneg s.history (s.index + 1) (by omega)]
    set t := s.history.take (s.index + 1).toNat with ht
    have hlen : (t ++ [node]).length = t.length + 1 := by
      simp [List.length_append]
    refine ⟨?_, ?_, ?_, ?_, ?_⟩
    · show -1 ≤ ((t ++ [node]).length : Int) - 1
      omega
    · show ((t ++ [node]).length : Int) - 1 < ((t ++ [node]).length : Int)
      omega
    · show ((t ++ [node]).length : Int) - 1 = -1 ↔ t ++ [node] = []
      constructor
      · intro hc; omega
      · intro hc; simpa using congrArg List.length hc
    · intro hc
      exfalso
      have : ((t ++ [node]).length : Int) - 1 = -1 := hc
      omega
    · intro _
      refine Or.inr ?_
      show some node = jsGet (t ++ [node]) (((t ++ [node]).length : Int) - 1)
      have harith : ((t ++ [node]).length : Int) - 1 = (t.length : Int) := by
        rw [hlen]; push_cast; omega
      rw [harith, jsGet_concat_length]
  | back =>
    rw [historyReducer]
    by_cases hc : s.index > 0
    · rw [if_pos hc]
      simp only [histInv]
      refine ⟨by omega, by omega, ?_, by omega, fun _ => Or.inr trivial⟩
      constructor
      · intro hx; omega
      · intro hx
        have := h3.mpr hx
        omega
    · rw [if_neg hc]
      exact ⟨h1, h2, h3, h4, h5⟩
  | forward =>
    rw [historyReducer]
    by_cases hc : s.index < (s.history.length : Int) - 1
    · rw [if_pos hc]
      simp only [histInv]
      refine ⟨by omega, by omega, ?_, by omega, fun _ => Or.inr trivial⟩
      constructor
      · intro hx; omega
      · intro hx
        have hx0 : s.history.length = 0 := by
          rw [hx]
          rfl
        omega
    · rw [if_neg hc]
      exact ⟨h1, h2, h3, h4, h5⟩
  | clear =>
    rw [historyReducer]
    exact ⟨h1, h2, h3, fun _ => rfl, fun _ => Or.inl rfl⟩
  | reset =>
    rw [historyReducer]
    simp only [histInv]
    refine ⟨by omega, by norm_num, by simp, fun _ => trivial, fun hx => by omega⟩

/-- Every reachable history state satisfies the invariant. -/
theorem histInv_reachable (s : HistoryState) (h : Reachable s) : histInv s := by
  induction h with
  | init =>
    refine ⟨by norm_num [initialHistoryState], by norm_num [initialHistoryState],
      by simp [initialHistoryState], fun _ => rfl, fun hx => ?_⟩
    exfalso
    have : (0 : Int) ≤ -1 := hx
    omega
  | step s a _ ih => exact histInv_step s a ih

/-- C1 (amended): for every reachable `HistoryState`, `-1 <= cursor <
length(stack)`, the cursor is `-1` exactly when the stack is empty, the
selection is none when the cursor is negative, and whenever `cursor >= 0`
the selection is either `stack[cursor]` or none (the latter after a
`clear`, which nulls the selection while keeping stack and cursor). -/
theorem history_invariant_holds (s : HistoryState) (h : Reachable s) :
    -1 ≤ s.index ∧ s.index < (s.history.length : Int) ∧
    (s.index = -1 ↔ s.history = []) ∧
    (s.index < 0 → s.selectedNode = none) ∧
    (0 ≤ s.index → s.selectedNode = none ∨ s.selectedNode = jsGet s.history s.index) := by
  obtain ⟨h1, h2, h3, h4, h5⟩ := histInv_reachable s h
  exact ⟨h1, h2, h3, fun hlt => h4 (by omega), h5⟩

/-- C1 witness: the invariant instantiated at the concrete reachable state
reached by `select A; select B`. -/
theorem history_invariant_witness :
    Reachable historyAB ∧
    (-1 ≤ historyAB.index ∧ historyAB.index < (historyAB.history.length : Int) ∧
     (historyAB.index = -1 ↔ historyAB.history = []) ∧
     (historyAB.index < 0 → historyAB.selectedNode = none) ∧
     (0 ≤ historyAB.index →
       historyAB.selectedNode = none ∨
       historyAB.selectedNode = jsGet historyAB.history historyAB.index)) := by
  have hr : Reachable historyAB :=
    Reachable.step _ _ (Reachable.step _ _ Reachable.init)
  exact ⟨hr, history_invariant_holds historyAB hr⟩

/-- C1 counterexample: after `select A; clear` the state is reachable with
`cursor = 0 >= 0` but `selected` is none, not `stack[0] = A`; so the claim
that `selected` always equals `stack[cursor]` when `cursor >= 0` is false. -/
theorem history_invariant_cex :
    Reachable historyAclear ∧
    0 ≤ historyAclear.index ∧
    jsGet historyAclear.history historyAclear.index = some (sampleNode "A") ∧
    historyAclear.selectedNode = none ∧
    historyAclear.selectedNode ≠ jsGet historyAclear.history historyAclear.index := by
  refine ⟨Reachable.step _ _ (Reachable.step _ _ Reachable.init), by decide, rfl, rfl, ?_⟩
  have h1 : historyAclear.selectedNode = none := rfl
  have h2 : jsGet historyAclear.history historyAclear.index = some (sampleNode "A") := rfl
  rw [h1, h2]
  simp

/-- C6: from any history state whose cursor respects the data model
(`cursor >= -1`), `select(n)` truncates the stack to `[0..cursor]`
inclusive, appends `n`, sets the cursor to the new last position, and
selects `n`. -/
theorem select_truncates (s : HistoryState) (node : Node) (h : -1 ≤ s.index) :
    (historyReducer s (HistoryAction.select node)).history
      = s.history.take (s.index + 1).toNat ++ [node] ∧
    (historyReducer s (HistoryAction.select node)).index
      = ((s.history.take (s.index + 1).toNat ++ [node]).length : Int) - 1 ∧
    (historyReducer s (HistoryAction.select node)).selectedNode = some node := by
  rw [historyReducer]
  rw [jsSliceToEnd_nonneg s.history (s.index + 1) (by omega)]
  exact ⟨rfl, rfl, rfl⟩

/-- C6 witness: the spec's select-truncation scenario: from stack
`[A, B, C]` at cursor 1 (selected `B`), `select(D)` yields `[A, B, D]`
at cursor 2 with `D` selected, discarding `C`. -/
theorem select_truncates_witness :
    (-1 : Int) ≤ historyABCatB.index ∧
    (historyReducer historyABCatB (HistoryAction.select (sampleNode "D"))).history
      = [sampleNode "A", sampleNode "B", sampleNode "D"] ∧
    (historyReducer historyABCatB (HistoryAction.select (sampleNode "D"))).index = 2 ∧
    (historyReducer historyABCatB (HistoryAction.select (sampleNode "D"))).selectedNode
      = some (sampleNode "D") := by
  refine ⟨by decide, ?_, ?_, ?_⟩
  · rw [(select_truncates historyABCatB (sampleNode "D") (by decide)).1]
    rfl
  · rw [(select_truncates historyABCatB (sampleNode "D") (by decide)).2.1]
    rfl
  · exact (select_truncates historyABCatB (sampleNode "D") (by decide)).2.2

/-- C7 (amended): from any reachable state with `cursor > 0`, `back()` then
`forward()` restores the stack and the cursor, and restores the original
`selected` provided `selected` equals `stack[cursor]` — which holds for
every reachable state except immediately after a `clear`, where `selected`
is none while the cursor stays put (see the counterexample). -/
theorem back_forward_restores (s : HistoryState) (h : Reachable s) (hpos : 0 < s.index) :
    (historyReducer (historyReducer s HistoryAction.back) HistoryAction.forward).history
      = s.history ∧
    (historyReducer (historyReducer s HistoryAction.back) HistoryAction.forward).index
      = s.index ∧
    (s.selectedNode = jsGet s.history s.index →
      (historyReducer (historyReducer s HistoryAction.back) HistoryAction.forward).selectedNode
        = s.selectedNode) := by
  obtain ⟨h1, h2, h3, h4, h5⟩ := histInv_reachable s h
  rw [historyReducer, if_pos hpos]
  rw [historyReducer]
  simp only []
  rw [if_pos (by omega : s.index - 1 < (s.history.length : Int) - 1)]
  have harith : s.index - 1 + 1 = s.index := by omega
  refine ⟨rfl, by simp only []; omega, fun hsel => ?_⟩
  simp only []
  rw [harith, ← hsel]

/-- C7 witness: after `select A; select B` (cursor 1, selected `B`),
`back()` then `forward()` restores cursor 1 and selected `B`. -/
theorem back_forward_restores_witness :
    Reachable historyAB ∧ 0 < historyAB.index ∧
    historyAB.selectedNode = jsGet historyAB.history historyAB.index ∧
    (historyReducer (historyReducer historyAB HistoryAction.back) HistoryAction.forward).index
      = historyAB.index ∧
    (historyReducer (historyReducer historyAB HistoryAction.back) HistoryAction.forward).selectedNode
      = historyAB.selectedNode := by
  have hr : Reachable historyAB :=
    Reachable.step _ _ (Reachable.step _ _ Reachable.init)
  have hsel : historyAB.selectedNode = jsGet historyAB.history historyAB.index := rfl
  have h := back_forward_restores historyAB hr (by decide)
  exact ⟨hr, by decide, hsel, h.2.1, h.2.2 hsel⟩

/-- C7 counterexample: the claim as stated fails on the reachable state
`select A; select B; clear`: its cursor is 1 > 0 and its `selected` is
none, but `back()` then `forward()` ends with `selected = B`, so the
original `selected` value is NOT restored. -/
theorem back_forward_cex :
    Reachable historyABclear ∧
    0 < historyABclear.index ∧
    (historyReducer (historyReducer historyABclear HistoryAction.back) HistoryAction.forward).selectedNode
      ≠ historyABclear.selectedNode := by
  refine ⟨Reachable.step _ _ (Reachable.step _ _ (Reachable.step _ _ Reachable.init)),
    by decide, ?_⟩
  have h1 : (historyReducer (historyReducer historyABclear HistoryAction.back)
      HistoryAction.forward).selectedNode = some (sampleNode "B") := rfl
  have h2 : historyABclear.selectedNode = none := rfl
  rw [h1, h2]
  simp

/-- C8: at the stack boundary, `back` (cursor <= 0) and `forward`
(cursor >= length - 1) return the input state itself — an exact no-op with
no error — and, the reducer being a total function, every action yields a
state on every input state. -/
theorem boundary_noops (s : HistoryState) :
    (s.index ≤ 0 → historyReducer s HistoryAction.back = s) ∧
    ((s.history.length : Int) - 1 ≤ s.index → historyReducer s HistoryAction.forward = s) ∧
    (∀ a : HistoryAction, ∃ s2 : HistoryState, historyReducer s a = s2) := by
  refine ⟨fun h => ?_, fun h => ?_, fun a => ⟨historyReducer s a, rfl⟩⟩
  · rw [historyReducer, if_neg (by omega)]
  · rw [historyReducer, if_neg (by omega)]

/-- C8 witness: at the initial state (empty stack, cursor -1) both `back`
and `forward` are exact no-ops. -/
theorem boundary_noops_witness :
    (initialHistoryState.index ≤ 0 ∧
      historyReducer initialHistoryState HistoryAction.back = initialHistoryState) ∧
    ((initialHistoryState.history.length : Int) - 1 ≤ initialHistoryState.index ∧
      historyReducer initialHistoryState HistoryAction.forward = initialHistoryState) :=
  ⟨⟨by decide, (boundary_noops initialHistoryState).1 (by decide)⟩,
   ⟨by decide, (boundary_noops initialHistoryState).2.1 (by decide)⟩⟩

/-- C10: `select` is never idempotent: from any state whose cursor respects
the data model (`-1 <= cursor < length(stack)`), selecting any node `n` —
even the currently selected one — grows the stack to `cursor + 2` entries
and moves the cursor up by one. -/
theorem select_not_idempotent (s : HistoryState) (node : Node)
    (h1 : -1 ≤ s.index) (h2 : s.index < (s.history.length : Int)) :
    ((historyReducer s (HistoryAction.select node)).history.length : Int) = s.index + 2 ∧
    (historyReducer s (HistoryAction.select node)).index = s.index + 1 := by
  rw [historyReducer]
  rw [jsSliceToEnd_nonneg s.history (s.index + 1) (by omega)]
  simp only []
  have htake : (s.history.take (s.index + 1).toNat).length = (s.index + 1).toNat := by
    rw [List.length_take]
    omega
  rw [List.length_append, htake]
  simp only [List.length_singleton]
  constructor <;> omega

/-- C10 witness: selecting the already-selected node `A` from stack `[A]`
at cursor 0 duplicates it: the stack grows to 2 entries, cursor 1. -/
theorem select_not_idempotent_witness :
    ((-1 : Int) ≤ historyAatA.index ∧ historyAatA.index < (historyAatA.history.length : Int)) ∧
    ((historyReducer historyAatA (HistoryAction.select (sampleNode "A"))).history.length : Int)
      = historyAatA.index + 2 ∧
    (historyReducer historyAatA (HistoryAction.select (sampleNode "A"))).index
      = historyAatA.index + 1 :=
  ⟨⟨by decide, by decide⟩,
   (select_not_idempotent historyAatA (sampleNode "A") (by decide) (by decide)).1,
   (select_not_idempotent historyAatA (sampleNode "A") (by decide) (by decide)).2⟩

/-- C2 (amended): every node of the filtered output is assigned a degree
equal to its inbound plus outbound relation count over the FULL dataset
(`graphData.relations`), independent of the current search term and
entity/relation-type filters; a self-loop contributes to both counts. -/
theorem degree_full_dataset (gd : GraphData)
    (searchTerm filterEntityType filterRelationType : String) (n : Node)
    (h : n ∈ assignDegrees (some gd)
      (getFilteredData (some gd) searchTerm filterEntityType filterRelationType).1) :
    n.degree = some ((gd.relations.filter (fun r => r.«to» == n.id)).length +
                     (gd.relations.filter (fun r => r.«from» == n.id)).length) := by
  rw [assignDegrees, List.mem_map] at h
  obtain ⟨m, _, rfl⟩ := h
  simp [getRelationCounts]

/-- C2 witness: on the two-relation dataset `gdC2`, the output node for `A`
carries degree 2, the full-dataset inbound+outbound count. -/
theorem degree_full_dataset_witness :
    nodeA2deg ∈ assignDegrees (some gdC2) (getFilteredData (some gdC2) "" "All" "r1").1 ∧
    nodeA2deg.degree
      = some ((gdC2.relations.filter (fun r => r.«to» == nodeA2deg.id)).length +
              (gdC2.relations.filter (fun r => r.«from» == nodeA2deg.id)).length) := by
  have hlist : assignDegrees (some gdC2) (getFilteredData (some gdC2) "" "All" "r1").1
      = [nodeA2deg, { mkNode entityB2 with degree := some 2 }] := rfl
  have hmem : nodeA2deg ∈ assignDegrees (some gdC2)
      (getFilteredData (some gdC2) "" "All" "r1").1 := by
    rw [hlist]
    exact List.Mem.head _
  exact ⟨hmem, degree_full_dataset gdC2 "" "All" "r1" nodeA2deg hmem⟩

/-- C2 counterexample: with dataset `gdC2` (relations `A→B` of types `r1`
and `r2`) and relation-type filter `r1`, the filtered view contains exactly
one link touching `A`, yet the code assigns `A` degree 2 (counted over the
full dataset), so a visible node's degree does NOT equal its endpoint count
in the currently filtered view. -/
theorem degree_filtered_view_cex :
    nodeA2deg ∈ assignDegrees (some gdC2) (getFilteredData (some gdC2) "" "All" "r1").1 ∧
    specFilteredDegree (getFilteredData (some gdC2) "" "All" "r1").2 nodeA2deg.id = 1 ∧
    nodeA2deg.degree
      ≠ some (specFilteredDegree (getFilteredData (some gdC2) "" "All" "r1").2 nodeA2deg.id) := by
  refine ⟨?_, by decide, by decide⟩
  have hlist : assignDegrees (some gdC2) (getFilteredData (some gdC2) "" "All" "r1").1
      = [nodeA2deg, { mkNode entityB2 with degree := some 2 }] := rfl
  rw [hlist]
  exact List.Mem.head _

/-- C3: every link produced by the filter pipeline has both its resolved
source and target nodes in the produced node list (hence both endpoint ids
present in the node set), for every dataset — dangling relations included —
and every query. -/
theorem link_endpoints_in_nodes (graphData : Option GraphData)
    (searchTerm filterEntityType filterRelationType : String) (link : Link)
    (hmem : link ∈ (getFilteredData graphData searchTerm filterEntityType filterRelationType).2) :
    link.source ∈ (getFilteredData graphData searchTerm filterEntityType filterRelationType).1 ∧
    link.target ∈ (getFilteredData graphData searchTerm filterEntityType filterRelationType).1 := by
  cases graphData with
  | none => simp [getFilteredData] at hmem
  | some gd =>
    simp only [getFilteredData] at hmem ⊢
    rw [mkLinks, List.mem_filterMap] at hmem
    obtain ⟨r, _, hfr⟩ := hmem
    cases hs : nodeMapGet ((filteredEntitiesOf gd searchTerm filterEntityType).map mkNode)
        r.«from» with
    | none => rw [hs] at hfr; simp at hfr
    | some src =>
      cases ht : nodeMapGet ((filteredEntitiesOf gd searchTerm filterEntityType).map mkNode)
          r.«to» with
      | none => rw [hs, ht] at hfr; simp at hfr
      | some tgt =>
        rw [hs, ht] at hfr
        simp only [Option.some.injEq] at hfr
        subst hfr
        exact ⟨nodeMapGet_mem _ _ _ hs, nodeMapGet_mem _ _ _ ht⟩

/-- C3 witness: on `gdC3` — whose relation list contains a dangling
relation `A→C` — the produced link `A→B` has both endpoints among the
produced nodes, and the dangling relation yields no link. -/
theorem link_endpoints_in_nodes_witness :
    linkC3 ∈ (getFilteredData (some gdC3) "" "All" "All").2 ∧
    linkC3.source ∈ (getFilteredData (some gdC3) "" "All" "All").1 ∧
    linkC3.target ∈ (getFilteredData (some gdC3) "" "All" "All").1 := by
  have hlinks : (getFilteredData (some gdC3) "" "All" "All").2 = [linkC3] := rfl
  have hmem : linkC3 ∈ (getFilteredData (some gdC3) "" "All" "All").2 := by
    rw [hlinks]
    exact List.Mem.head _
  exact ⟨hmem, link_endpoints_in_nodes (some gdC3) "" "All" "All" linkC3 hmem⟩

/-- C4: the filter pipeline is a pure function of `(dataset, query)` — it is
embedded as a Lean function precisely because the source reads nothing but
its inputs and mutates nothing — and applying it twice to identical inputs
yields equal, hence structurally equivalent, node and link sets. -/
theorem filter_idempotent (graphData : Option GraphData)
    (searchTerm filterEntityType filterRelationType : String) :
    getFilteredData graphData searchTerm filterEntityType filterRelationType
      = getFilteredData graphData searchTerm filterEntityType filterRelationType ∧
    structEquiv
      (getFilteredData graphData searchTerm filterEntityType filterRelationType)
      (getFilteredData graphData searchTerm filterEntityType filterRelationType) :=
  ⟨rfl, rfl, rfl⟩

/-- C5: with a non-empty search term, an entity survives the search step iff
its name, its entityType, or one of its observations contains the term
case-insensitively; and when it does not match (its name being unique in
the dataset), no output node carries its name and no output link touches
it at either endpoint. -/
theorem search_filter_spec (gd : GraphData)
    (searchTerm filterEntityType filterRelationType : String) (e : Entity)
    (hne : searchTerm ≠ "") :
    (e ∈ searchFilter searchTerm gd.entities ↔
      e ∈ gd.entities ∧ entityMatchesSearch (jsToLower searchTerm) e = true) ∧
    (entityMatchesSearch (jsToLower searchTerm) e = false →
      (∀ e2 ∈ gd.entities, e2.name = e.name → e2 = e) →
      (∀ n ∈ (getFilteredData (some gd) searchTerm filterEntityType filterRelationType).1,
        n.id ≠ e.name) ∧
      (∀ l ∈ (getFilteredData (some gd) searchTerm filterEntityType filterRelationType).2,
        l.source.id ≠ e.name ∧ l.target.id ≠ e.name)) := by
  constructor
  · rw [searchFilter, if_pos hne]
    exact List.mem_filter
  · intro hmatch huniq
    have hsurvive : ∀ e2 ∈ filteredEntitiesOf gd searchTerm filterEntityType,
        e2.name ≠ e.name := by
      intro e2 h2 hname
      have h2s : e2 ∈ searchFilter searchTerm gd.entities := by
        rw [filteredEntitiesOf, entityTypeFilter] at h2
        by_cases hft : filterEntityType ≠ "All"
        · rw [if_pos hft] at h2
          exact (List.mem_filter.mp h2).1
        · rw [if_neg hft] at h2
          exact h2
      rw [searchFilter, if_pos hne, List.mem_filter] at h2s
      have he2 : e2 = e := huniq e2 h2s.1 hname
      rw [he2] at h2s
      rw [hmatch] at h2s
      exact Bool.false_ne_true h2s.2
    constructor
    · intro n hn
      simp only [getFilteredData, List.mem_map] at hn
      obtain ⟨e2, h2, rfl⟩ := hn
      exact hsurvive e2 h2
    · intro l hl
      simp only [getFilteredData] at hl
      rw [mkLinks, List.mem_filterMap] at hl
      obtain ⟨r, hr, hfr⟩ := hl
      have hr2 : r ∈ relationEndpointFilter
          (entityNamesOf gd searchTerm filterEntityType) gd.relations := by
        rw [filteredRelationsOf, relationTypeFilter] at hr
        by_cases hft : filterRelationType ≠ "All"
        · rw [if_pos hft] at hr
          exact (List.mem_filter.mp hr).1
        · rw [if_neg hft] at hr
          exact hr
      rw [relationEndpointFilter, List.mem_filter] at hr2
      have hcontains := hr2.2
      rw [Bool.and_eq_true] at hcontains
      have hfromName : r.«from» ≠ e.name := by
        have := hcontains.1
        rw [List.contains_eq_any_beq, List.any_eq_true] at this
        obtain ⟨nm, hnm, hbeq⟩ := this
        rw [entityNamesOf, List.mem_map] at hnm
        obtain ⟨e2, h2, rfl⟩ := hnm
        have : r.«from» = e2.name := eq_of_beq hbeq
        rw [this]
        exact hsurvive e2 h2
      have htoName : r.«to» ≠ e.name := by
        have := hcontains.2
        rw [List.contains_eq_any_beq, List.any_eq_true] at this
        obtain ⟨nm, hnm, hbeq⟩ := this
        rw [entityNamesOf, List.mem_map] at hnm
        obtain ⟨e2, h2, rfl⟩ := hnm
        have : r.«to» = e2.name := eq_of_beq hbeq
        rw [this]
        exact hsurvive e2 h2
      cases hs : nodeMapGet ((filteredEntitiesOf gd searchTerm filterEntityType).map mkNode)
          r.«from» with
      | none => rw [hs] at hfr; simp at hfr
      | some src =>
        cases ht : nodeMapGet ((filteredEntitiesOf gd searchTerm filterEntityType).map mkNode)
            r.«to» with
        | none => rw [hs, ht] at hfr; simp at hfr
        | some tgt =>
          rw [hs, ht] at hfr
          simp only [Option.some.injEq] at hfr
          subst hfr
          exact ⟨by rw [nodeMapGet_id _ _ _ hs]; exact hfromName,
                 by rw [nodeMapGet_id _ _ _ ht]; exact htoName⟩

/-- C5 witness: the spec's search scenario on `gdC5`: `searchTerm="cats"`
retains Alice (match inside an observation); `searchTerm="dogs"` excludes
her — the surviving node is Bob's, and the relation `Alice→Bob` is gone
(the link list is empty). -/
theorem search_filter_spec_witness :
    aliceEntity ∈ searchFilter "cats" gdC5.entities ∧
    (mkNode bobEntity).id ≠ aliceEntity.name ∧
    (getFilteredData (some gdC5) "dogs" "All" "All").2 = [] := by
  refine ⟨?_, ?_, rfl⟩
  · exact (search_filter_spec gdC5 "cats" "All" "All" aliceEntity (by decide)).1.mpr
      ⟨List.Mem.head _, by decide⟩
  · have hnodes : (getFilteredData (some gdC5) "dogs" "All" "All").1
        = [mkNode bobEntity] := rfl
    have hmem : mkNode bobEntity ∈ (getFilteredData (some gdC5) "dogs" "All" "All").1 := by
      rw [hnodes]
      exact List.Mem.head _
    exact ((search_filter_spec gdC5 "dogs" "All" "All" aliceEntity (by decide)).2
      (by decide) (by decide)).1 (mkNode bobEntity) hmem
